import Mathlib

/-!
Shallow embedding of the action-execution core of the simple-reconnect-daemon
repository (`src/actions.c`), together with theorems settling the frozen
claims about it.  Pure computation (string building, budget arithmetic,
control flow) is translated directly; interactions with the operating system
(`fork`/`waitpid`, `write`/`read`/`epoll_wait`, `getpwnam`, the filesystem)
are made explicit as environment/trace parameters that record what the OS
returned, so every function here is an executable Lean definition.
-/

namespace SRD

/-! ## Data model (structs from `actions.h` as used by `actions.c`) -/

/-- `action_cmd_t`: a shell command plus an optional user to run it as. -/
structure action_cmd_t where
  command : String
  user : Option String
deriving DecidableEq

/-- `action_log_t`: path of the log file, optional first-creation header,
optional owner user name. -/
structure action_log_t where
  path : String
  header : Option String
  username : Option String
deriving DecidableEq

/-- `action_influx_t`: the metrics endpoint.  `conn_socket` is the mutable
connection field (`<= 0` means no live connection; the daemon reuses a
positive fd across calls).  `timeout` is the float seconds budget, modelled
as a rational. -/
structure action_influx_t where
  host : String
  port : Nat
  endpoint : String
  authorization : String
  timeout : Rat
  conn_socket : Int
deriving DecidableEq

/-! ## ProcessRunner: `run_command` (src/actions.c lines 132-219)

The child branch and the parent branch are modelled separately.  The child
is `childRun`; the parent is `run_command`, driven by an environment that
says when (in milliseconds after the spawn) the child becomes reapable by
`waitpid`.  Polling is idealised on the code's own schedule: `waitpid` with
`WNOHANG` is called at elapsed times 0, 100, 200, ... ms (the code sleeps
`usleep(1e5)` = 100 ms between polls) and the deadline check after the k-th
sleep sees `diff_ms = (k+1)*100`. -/

/-- What the child process ends up doing (lines 148-166).  `segfault` models
the undefined behaviour of dereferencing `a->pw_uid` when `getpwnam`
returned `NULL` (line 157-158: there is no NULL check): the child is killed
before reaching `execl`.  `exec uid` means `execl("/bin/sh", "sh", "-c",
command)` ran with effective uid `uid`; `execFail` means `execl` itself
failed and the child returned after logging. -/
inductive ChildOutcome
  | segfault
  | exec (uid : Nat)
  | execFail
deriving DecidableEq

/-- The child branch of `run_command`.  `pw` is `getpwnam` restricted to the
uid it yields; `origUid` is the uid the parent (and hence the forked child)
already runs as; `setuidOk` is whether the unchecked `setuid(uid)` call
succeeds; `execOk` is whether `execl` succeeds. -/
def childRun (cmd : action_cmd_t) (pw : String → Option Nat) (origUid : Nat)
    (setuidOk : Bool) (execOk : Bool) : ChildOutcome :=
  match cmd.user with
  | some u =>
    match pw u with
    | none => ChildOutcome.segfault
    | some uid =>
      let effective := if setuidOk then uid else origUid
      if execOk then ChildOutcome.exec effective else ChildOutcome.execFail
  | none => if execOk then ChildOutcome.exec origUid else ChildOutcome.execFail

/-- Observable events of the parent branch, in program order. -/
inductive Ev
  | poll (reaped : Bool)
  | sleep
  | sigterm
  | blockingWait
  | readPipe
  | closeRead
deriving DecidableEq

/-- Is the child reapable at the poll performed `100*k` ms after the spawn?
`childExit = some t` means the child terminates `t` ms after the spawn;
`none` means it never terminates on its own. -/
def reapable (childExit : Option Nat) (k : Nat) : Bool :=
  match childExit with
  | some t => t ≤ 100 * k
  | none => false

/-- Result of the `waitpid`/`usleep` polling loop (lines 183-202). -/
inductive LoopOut
  | clean (k : Nat)
  | killed (k : Nat)
  | fuelOut
deriving DecidableEq

/-- The polling loop of lines 183-202: poll (`waitpid` with `WNOHANG`),
sleep 100 ms, measure `diff_ms`, and on `diff_ms >= timeout_ms` send
`SIGTERM`, reap with a blocking `waitpid`, and give up.  `fuel` bounds the
recursion; `run_command` supplies enough fuel that it is never exhausted. -/
def waitLoop (childExit : Option Nat) (timeout_ms : Nat) :
    Nat → Nat → LoopOut × List Ev
  | _, 0 => (LoopOut.fuelOut, [])
  | k, fuel + 1 =>
    if reapable childExit k then (LoopOut.clean k, [Ev.poll true])
    else if 100 * (k + 1) ≥ timeout_ms then
      (LoopOut.killed k, [Ev.poll false, Ev.sleep, Ev.sigterm, Ev.blockingWait])
    else
      let r := waitLoop childExit timeout_ms (k + 1) fuel
      (r.1, Ev.poll false :: Ev.sleep :: r.2)

/-- Environment of one `run_command` call: did `pipe` succeed, did `fork`
succeed, when does the child terminate, and the caller's timeout. -/
structure RunEnv where
  pipeOk : Bool
  forkOk : Bool
  childExit : Option Nat
  timeout_ms : Nat

/-- The parent branch of `run_command` (lines 132-219).  `childStatus` is
the child's exit status; the code passes `NULL` as the status pointer of
both `waitpid` calls, so the parameter is never consulted.  On a clean
reap the parent drains the output pipe (lines 204-210), closes its read
end and returns `res == pid`, i.e. true; on the timeout path it returns
failure right after the blocking reap, without touching the pipe. -/
def run_command (env : RunEnv) (childStatus : Int) : Bool × List Ev :=
  if !env.pipeOk then (false, [])
  else if !env.forkOk then (false, [])
  else
    let fuel := env.timeout_ms / 100 + 2
    match waitLoop env.childExit env.timeout_ms 0 fuel with
    | (LoopOut.clean _, evs) => (true, evs ++ [Ev.readPipe, Ev.closeRead])
    | (LoopOut.killed _, evs) => (false, evs)
    | (LoopOut.fuelOut, evs) => (false, evs)

/-- Formalised from claim C8's words: did the parent perform a pipe read
strictly before the poll that observed the child's exit? -/
def drainedBeforeReap : List Ev → Bool
  | [] => false
  | Ev.poll true :: _ => false
  | Ev.readPipe :: _ => true
  | _ :: rest => drainedBeforeReap rest

/-! ## AuditLogger: `log_to_file` (src/actions.c lines 221-261)

The file is modelled as its list of lines (`fputs s; fputs "\n"` appends the
line `s`), `Option` distinguishing a missing file (the `access(path, F_OK)`
check) from an existing one. -/

/-- Environment of one `log_to_file` call: does `fopen` succeed, does
`fclose` succeed, `getpwnam` (yielding uid/gid), does `chown` succeed. -/
structure LogEnv where
  fopenOk : Bool
  fcloseOk : Bool
  pw : String → Option (Nat × Nat)
  chownOk : Bool

/-- Result of `log_to_file`: the file contents afterwards and the returned
code, or `segfault` for the undefined behaviour of dereferencing
`user_passwd->pw_uid` when `getpwnam` returned `NULL` (line 251-253 has no
NULL check).  The crash happens after `fclose`, so the written contents are
recorded in the `segfault` case too. -/
inductive LogRes
  | ret (content : Option (List String)) (ok : Bool)
  | segfault (content : Option (List String))
deriving DecidableEq

/-- `log_to_file` (lines 221-261): check existence before opening, open for
append (creating the file), write the header iff the file is new and
`header` is set, write the line, close; then, iff the file is new and
`username` is set, resolve the user and `chown` — a `chown` failure is only
logged and does not affect the return code. -/
def log_to_file (alog : action_log_t) (content : Option (List String))
    (line : String) (env : LogEnv) : LogRes :=
  let is_new := content.isNone
  if !env.fopenOk then LogRes.ret content false
  else
    let c0 := content.getD []
    let c1 := if is_new then
        match alog.header with
        | some h => c0 ++ [h]
        | none => c0
      else c0
    let c2 := c1 ++ [line]
    let ret_code := env.fcloseOk
    if is_new then
      match alog.username with
      | some u =>
        match env.pw u with
        | none => LogRes.segfault (some c2)
        | some _ => LogRes.ret (some c2) ret_code
      | none => LogRes.ret (some c2) ret_code
    else LogRes.ret (some c2) ret_code

/-- An all-good OS environment for `log_to_file`. -/
def logEnvOK : LogEnv := ⟨true, true, fun _ => some (7, 7), true⟩

/-! ## MetricsSink: `influx` (src/actions.c lines 263-484)

The call is a sequence of phases over the non-blocking socket: optional
connection establishment, header send loop, body send loop, response read
loop, status check.  Each loop consumes a trace of observed I/O results
supplied by the environment.  Elapsed times measured by `time()` are whole
seconds (`time_t`), hence `Nat`; the float budget is a `Rat`. -/

/-- One observed result of a `write` call in a send loop: either `write`
returned `-1` with `errno` in `{EWOULDBLOCK, EAGAIN}` (`block`, together
with the `epoll_wait` outcome and the seconds elapsed while waiting), or it
returned the byte count `n` (`ret`, covering full writes, short writes and
`-1` with any other `errno`). -/
inductive WriteEv
  | ret (n : Int)
  | block (ready : Bool) (elapsed : Nat)
deriving DecidableEq

/-- One observed result of a `read` call in the response loop, with the same
convention.  The `elapsed` of a `block` is sampled by the code
(`time(&t1)`, line 446-447) but never used. -/
inductive ReadEv
  | ret (n : Int)
  | block (ready : Bool) (elapsed : Nat)
deriving DecidableEq

/-- Modelled from the spec: the `CLOSE` macro comes from `actions.h`, which
is not among the provided sources; per the spec, on failure "the connection
is always closed and `endpoint.connection` cleared, forcing a fresh connect
on the next call".  We model it as closing the socket and clearing the
connection field. -/
def CLOSE (act : action_influx_t) : action_influx_t := { act with conn_socket := 0 }

/-- What the OS does if the connection-establishment block (lines 269-352)
runs: hostname resolution fails; `socket()` fails; `connect` succeeds
synchronously; `connect` reports `EINPROGRESS` (with the `epoll_wait`
outcome on the writable watcher and the seconds elapsed between the two
`time()` samples); or `connect` fails with another error. -/
inductive ConnectEnv
  | resolveFail
  | socketFail
  | immediate (sock : Int)
  | inProgress (sock : Int) (ready : Bool) (elapsed : Nat)
  | connectErr (sock : Int)
deriving DecidableEq

/-- Result of the connection-establishment phase: an early `return 0` with
the endpoint in some state, or a live connection plus the remaining
budget. -/
inductive ConnRes
  | fail (act : action_influx_t)
  | conn (act : action_influx_t) (tl : Rat)
deriving DecidableEq

/-- Lines 269-352: skipped entirely when `conn_socket > 0`; otherwise the
socket is created (fd stored in `conn_socket` before `connect`), and on the
`EINPROGRESS` path the writable watcher is awaited for up to 10 s, the
elapsed seconds being deducted from the budget on success — with no
exhaustion check afterwards. -/
def connectPhase (act : action_influx_t) (tl : Rat) (e : ConnectEnv) : ConnRes :=
  if act.conn_socket > 0 then ConnRes.conn act tl
  else match e with
  | ConnectEnv.resolveFail => ConnRes.fail act
  | ConnectEnv.socketFail => ConnRes.fail { act with conn_socket := -1 }
  | ConnectEnv.immediate s => ConnRes.conn { act with conn_socket := s } tl
  | ConnectEnv.inProgress s ready elapsed =>
    let act' := { act with conn_socket := s }
    if !ready then ConnRes.fail (CLOSE act')
    else ConnRes.conn act' (tl - (elapsed : Rat))
  | ConnectEnv.connectErr s => ConnRes.fail (CLOSE { act with conn_socket := s })

/-- The body buffer (lines 355-359): `line_len = strlen(actual_line) + 1`,
then `snprintf(body, line_len, "%s\n", actual_line)` — `snprintf` writes at
most `line_len - 1` characters of the formatted string `line ++ "\n"`. -/
def mkBody (line : String) : String :=
  let line_len := line.length + 1
  (line ++ "\n").take (line_len - 1)

/-- The header buffer (lines 362-366): `snprintf(header, 256, ...)`, i.e.
the formatted request head truncated to 255 characters.  The
`Content-Length` value is `strlen(body)`. -/
def mkHeader (act : action_influx_t) (line : String) : String :=
  ("POST " ++ act.endpoint ++ " HTTP/1.1\r\n" ++
   "Host: " ++ act.host ++ ":" ++ toString act.port ++ "\r\n" ++
   "Content-Length: " ++ toString (mkBody line).length ++ "\r\n" ++
   "Authorization: " ++ act.authorization ++ "\r\n\r\n").take 255

/-- Result of a send loop: full buffer written (budget threaded through);
failure after `CLOSE`; failure with the connection left untouched (the
post-wait budget-exhaustion `return 0` of lines 389-392 / 424-427, which
does not call `CLOSE`); or trace exhausted (modelling artifact, never
reached by the theorems below). -/
inductive SendRes
  | sent (tl : Rat)
  | failClosed
  | failOpen (tl : Rat)
  | stuck
deriving DecidableEq

/-- The header/body send loop (lines 368-400 and 402-435, identical
structure): `write` the whole buffer; on `EWOULDBLOCK`/`EAGAIN` wait on the
writable watcher for up to the remaining budget — watcher timeout or error
is failure with `CLOSE`; otherwise deduct the elapsed seconds and fail
(without `CLOSE`) if the budget is now `<= 0`, else retry.  A return count
equal to the full buffer length finishes the loop; any other count is
failure with `CLOSE`. -/
def sendLoop (len : Nat) (tl : Rat) : List WriteEv → SendRes
  | [] => SendRes.stuck
  | WriteEv.block ready elapsed :: rest =>
    if !ready then SendRes.failClosed
    else
      let tl' := tl - (elapsed : Rat)
      if tl' ≤ 0 then SendRes.failOpen tl'
      else sendLoop len tl' rest
  | WriteEv.ret n :: _ => if n = (len : Int) then SendRes.sent tl else SendRes.failClosed

/-- Result of the response read loop: more than 22 bytes read in one call
(budget threaded through), or failure after `CLOSE`, or trace exhausted. -/
inductive ReadRes
  | got (n : Int) (tl : Rat)
  | failClosed
  | stuck
deriving DecidableEq

/-- The response read loop (lines 442-468): on `EWOULDBLOCK`/`EAGAIN` wait
on the readable watcher for up to the remaining budget — watcher timeout or
error is failure with `CLOSE`, otherwise simply retry: unlike the send
loops, nothing is deducted from the budget and no exhaustion check is made
(`t1` is sampled at line 446-447 but never used).  A read of more than 22
bytes finishes the loop; any other result is failure with `CLOSE`. -/
def readLoop (tl : Rat) : List ReadEv → ReadRes
  | [] => ReadRes.stuck
  | ReadEv.block ready _ :: rest =>
    if !ready then ReadRes.failClosed
    else readLoop tl rest
  | ReadEv.ret n :: _ => if n > 22 then ReadRes.got n tl else ReadRes.failClosed

/-- Environment of one `influx` call: the connect-phase scenario, the traces
of the three I/O loops and the bytes found in `answer` afterwards. -/
structure InfluxEnv where
  connect : ConnectEnv
  headerTrace : List WriteEv
  bodyTrace : List WriteEv
  readTrace : List ReadEv
  answer : String

/-- Result of `influx`: the endpoint state as left by the call plus the
returned code, or `stuck` when a loop ran out of trace. -/
inductive InfluxRes
  | done (act : action_influx_t) (ok : Bool)
  | stuck
deriving DecidableEq

/-- `influx` (lines 263-484): establish the connection if there is none,
build body and header, send the header, send the body, read the response,
and succeed iff its first 23 bytes are `"HTTP/1.1 204 No Content"` (the
connection then stays open); every other outcome is failure, with `CLOSE`
on all failure paths except the two post-wait budget-exhaustion returns. -/
def influx (act : action_influx_t) (env : InfluxEnv) (line : String) : InfluxRes :=
  let timeout_left := act.timeout
  match connectPhase act timeout_left env.connect with
  | ConnRes.fail act' => InfluxRes.done act' false
  | ConnRes.conn act' tl1 =>
    let body := mkBody line
    let header := mkHeader act' line
    match sendLoop header.length tl1 env.headerTrace with
    | SendRes.stuck => InfluxRes.stuck
    | SendRes.failClosed => InfluxRes.done (CLOSE act') false
    | SendRes.failOpen _ => InfluxRes.done act' false
    | SendRes.sent tl2 =>
      match sendLoop body.length tl2 env.bodyTrace with
      | SendRes.stuck => InfluxRes.stuck
      | SendRes.failClosed => InfluxRes.done (CLOSE act') false
      | SendRes.failOpen _ => InfluxRes.done act' false
      | SendRes.sent tl3 =>
        match readLoop tl3 env.readTrace with
        | ReadRes.stuck => InfluxRes.stuck
        | ReadRes.failClosed => InfluxRes.done (CLOSE act') false
        | ReadRes.got _ _ =>
          if env.answer.take 23 = "HTTP/1.1 204 No Content" then
            InfluxRes.done act' true
          else InfluxRes.done (CLOSE act') false

/-- The waits (elapsed seconds) of the write events of a trace, in order. -/
def waitsOfWrite : List WriteEv → List Nat
  | [] => []
  | WriteEv.block _ e :: r => e :: waitsOfWrite r
  | WriteEv.ret _ :: r => waitsOfWrite r

/-- The waits (elapsed seconds) of the read events of a trace, in order. -/
def waitsOfRead : List ReadEv → List Nat
  | [] => []
  | ReadEv.block _ e :: r => e :: waitsOfRead r
  | ReadEv.ret _ :: r => waitsOfRead r

/-- The wait of the connect phase, if any. -/
def waitsOfConnect : ConnectEnv → List Nat
  | ConnectEnv.inProgress _ _ e => [e]
  | _ => []

/-- Formalised from claim C3's words: the budget that would remain if every
readiness wait of the call, in every phase, deducted its elapsed time. -/
def specRemainingBudget (t0 : Rat) (env : InfluxEnv) : Rat :=
  t0 - ((waitsOfConnect env.connect ++ waitsOfWrite env.headerTrace ++
         waitsOfWrite env.bodyTrace ++ waitsOfRead env.readTrace).foldl
          (fun a e => a + (e : Rat)) 0)

/-- Endpoint fixture with a live cached connection (fd 3) and a 5 s budget. -/
def endpointC1 : action_influx_t := ⟨"h", 8086, "/w", "tok", 5, 3⟩

/-- Trace fixture for claim C1: the header `write` would block, the watcher
wait succeeds but takes 10 s, exhausting the 5 s budget. -/
def envC1 : InfluxEnv := ⟨ConnectEnv.immediate 3, [WriteEv.block true 10], [], [], ""⟩

/-- Endpoint fixture with a live cached connection (fd 3) and a 6 s budget. -/
def endpointC3 : action_influx_t := ⟨"h", 8086, "/w", "tok", 6, 3⟩

/-- Trace fixture for claim C3: header and body are written in full at once;
the response read blocks twice, each watcher wait taking 5 s (10 s in
total, against a 6 s budget), then delivers 23 bytes of a 204 response. -/
def envC3 : InfluxEnv :=
  ⟨ConnectEnv.immediate 3,
   [WriteEv.ret ((mkHeader endpointC3 "m").length : Int)],
   [WriteEv.ret ((mkBody "m").length : Int)],
   [ReadEv.block true 5, ReadEv.block true 5, ReadEv.ret 23],
   "HTTP/1.1 204 No Content"⟩

/-! ## Theorems settling the claims -/

/-- Claim C1 (code bug).  The claim says every failing `influx` call —
including budget exhaustion in any phase — closes the socket and clears
`endpoint.connection` before returning.  Evaluating the embedded code on
the failing input (live connection fd 3, 5 s budget, header `write` blocks,
watcher wait succeeds after 10 s): the call returns failure, yet the
endpoint still holds `conn_socket = 3` — the budget-exhaustion `return 0`
of lines 389-392 (and likewise 424-427) skips `CLOSE`, so the next call
reuses a half-used connection instead of performing a fresh connect. -/
theorem influx_budget_exhaustion_leaves_connection_open :
    influx endpointC1 envC1 "m" = InfluxRes.done endpointC1 false ∧
    0 < endpointC1.conn_socket := by
  constructor
  · norm_num [influx, connectPhase, sendLoop, readLoop, endpointC1, envC1,
      CLOSE, mkHeader, mkBody]
  · norm_num [endpointC1]

set_option maxRecDepth 8000 in
/-- Claim C2 (code bug).  The claim says the request body is the line plus
a trailing newline and `Content-Length` is the line length plus one.  In
the code, `snprintf(body, line_len, "%s\n", actual_line)` with
`line_len = strlen(actual_line) + 1` truncates the formatted string to
`line_len - 1` characters, cutting the newline off: for the line `"x"` the
body is `"x"` (not `"x\n"`), `strlen(body)` — the value printed into the
`Content-Length` header — is `1` (not `2`), and the full request head shows
`Content-Length: 1`. -/
theorem influx_body_drops_trailing_newline :
    mkBody "x" = "x" ∧ (mkBody "x").length = 1 ∧ mkBody "x" ≠ "x" ++ "\n" ∧
    mkHeader ⟨"h", 1, "/w", "t", 5, 0⟩ "x" =
      "POST /w HTTP/1.1\r\nHost: h:1\r\nContent-Length: 1\r\nAuthorization: t\r\n\r\n" :=
  ⟨rfl, rfl, by decide, rfl⟩

set_option maxRecDepth 8000 in
/-- Claim C3 (counterexample).  The claim says every readiness wait in
every phase — including the response read — deducts its elapsed time from
the remaining budget and the call fails as soon as the budget reaches zero
or below.  Counterexample at a concrete input: with a 6 s budget and a
response-read phase that blocks twice, each wait taking 5 s, the budget
under the claim's accounting is `6 - 10 ≤ 0` — yet the call returns
success, because the read loop of lines 442-468 never deducts anything and
never checks the budget. -/
theorem influx_read_phase_ignores_budget_cex :
    specRemainingBudget endpointC3.timeout envC3 ≤ 0 ∧
    influx endpointC3 envC3 "m" = InfluxRes.done endpointC3 true := by
  constructor
  · norm_num [specRemainingBudget, endpointC3, envC3, waitsOfConnect,
      waitsOfWrite, waitsOfRead]
  · norm_num [influx, connectPhase, sendLoop, readLoop, endpointC3, envC3,
      CLOSE, mkHeader, mkBody]
    rfl

/-- Claim C4 (code bug).  The claim says an unresolvable `user` makes
`run_command` return failure while the child exits without executing the
shell.  In the code the child indeed never reaches `execl`: `getpwnam`
returns `NULL` and line 158 dereferences it, killing the child
(`childRun = segfault`).  But the parent then reaps the dead child at its
first poll and returns `res == pid`, i.e. success — the exit status is
never inspected, so `run_command` reports success, contradicting the
claim's first half. -/
theorem run_command_unresolvable_user_reports_success :
    childRun ⟨"reboot", some "ghost"⟩ (fun _ => none) 0 true true =
      ChildOutcome.segfault ∧
    (run_command ⟨true, true, some 0, 5000⟩ 0).1 = true :=
  ⟨rfl, rfl⟩

/-- Claim C6 (code bug).  The claim says that for a newly created file with
an owner set, failure to resolve the owner or to change ownership is only
logged and leaves the (successful) return value intact.  The `chown` half
is true: with a resolvable owner the result is success whatever `chown`
returns (the code only logs a negative `chown` result).  But an
unresolvable owner is not logged-and-ignored: line 253 dereferences the
`NULL` result of `getpwnam`, crashing the call instead of returning the
write's success. -/
theorem log_to_file_unresolvable_owner_crashes :
    log_to_file ⟨"p", some "hdr", some "ghost"⟩ none "l"
        ⟨true, true, fun _ => none, true⟩ =
      LogRes.segfault (some ["hdr", "l"]) ∧
    (∀ chownResult : Bool,
      log_to_file ⟨"p", none, some "alice"⟩ none "l"
          ⟨true, true, fun _ => some (7, 7), chownResult⟩ =
        LogRes.ret (some ["l"]) true) :=
  ⟨rfl, fun _ => rfl⟩

/-- Claim C7 (confirmed).  Starting from a non-existent path with a header
set, the first `log_to_file` call creates the file as the header line
followed by the first body line; the second call sees an existing file and
appends only the second body line — the header is written exactly once and
the lines appear in call order.  On any already-existing file the header is
never written. -/
theorem log_to_file_header_written_once (h l1 l2 : String) (prior : List String) :
    log_to_file ⟨"p", some h, none⟩ none l1 logEnvOK =
      LogRes.ret (some [h, l1]) true ∧
    log_to_file ⟨"p", some h, none⟩ (some [h, l1]) l2 logEnvOK =
      LogRes.ret (some [h, l1, l2]) true ∧
    log_to_file ⟨"p", some h, none⟩ (some prior) l2 logEnvOK =
      LogRes.ret (some (prior ++ [l2])) true :=
  ⟨rfl, rfl, rfl⟩

/-- Helper: a send loop that completes never increases the budget. -/
theorem sendLoop_sent_le (tr : List WriteEv) :
    ∀ (len : Nat) (tl tl' : Rat), sendLoop len tl tr = SendRes.sent tl' → tl' ≤ tl := by
  induction tr with
  | nil => intro len tl tl' h; simp [sendLoop] at h
  | cons ev rest ih =>
    intro len tl tl' h
    cases ev with
    | block ready elapsed =>
      cases ready with
      | false => simp [sendLoop] at h
      | true =>
        simp only [sendLoop, Bool.not_true] at h
        split at h
        · simp at h
        · split at h
          · simp at h
          · exact le_trans (ih len _ tl' h) (sub_le_self tl (Nat.cast_nonneg elapsed))
    | ret n =>
      simp only [sendLoop] at h
      split at h
      · injection h with h; exact le_of_eq h.symm
      · simp at h

/-- Helper: a send loop that fails on budget exhaustion reports a
non-positive budget that is no larger than the budget it started with. -/
theorem sendLoop_failOpen_le (tr : List WriteEv) :
    ∀ (len : Nat) (tl tl' : Rat), sendLoop len tl tr = SendRes.failOpen tl' →
      tl' ≤ 0 ∧ tl' ≤ tl := by
  induction tr with
  | nil => intro len tl tl' h; simp [sendLoop] at h
  | cons ev rest ih =>
    intro len tl tl' h
    cases ev with
    | block ready elapsed =>
      cases ready with
      | false => simp [sendLoop] at h
      | true =>
        simp only [sendLoop, Bool.not_true] at h
        split at h
        · simp at h
        · split at h
          · injection h with h
            subst h
            exact ⟨by assumption, sub_le_self tl (Nat.cast_nonneg elapsed)⟩
          · obtain ⟨h1, h2⟩ := ih len _ tl' h
            exact ⟨h1, le_trans h2 (sub_le_self tl (Nat.cast_nonneg elapsed))⟩
    | ret n =>
      simp only [sendLoop] at h
      split at h <;> simp at h

/-- Helper: the response read loop threads the budget through unchanged. -/
theorem readLoop_got_eq (tr : List ReadEv) :
    ∀ (tl tl' : Rat) (n : Int), readLoop tl tr = ReadRes.got n tl' → tl' = tl := by
  induction tr with
  | nil => intro tl tl' n h; simp [readLoop] at h
  | cons ev rest ih =>
    intro tl tl' n h
    cases ev with
    | block ready elapsed =>
      cases ready with
      | false => simp [readLoop] at h
      | true =>
        simp only [readLoop, Bool.not_true] at h
        split at h
        · simp at h
        · exact ih tl tl' n h
    | ret m =>
      simp only [readLoop] at h
      split at h
      · injection h with h1 h2; exact h2.symm
      · simp at h

/-- Helper: the connect phase never increases the budget. -/
theorem connectPhase_conn_le (act : action_influx_t) (tl : Rat) (e : ConnectEnv)
    (act' : action_influx_t) (tl' : Rat)
    (h : connectPhase act tl e = ConnRes.conn act' tl') : tl' ≤ tl := by
  simp only [connectPhase] at h
  split at h
  · injection h with h1 h2; exact le_of_eq h2.symm
  · cases e with
    | resolveFail => simp at h
    | socketFail => simp at h
    | immediate s => injection h with h1 h2; exact le_of_eq h2.symm
    | inProgress s ready elapsed =>
      cases ready with
      | false => simp at h
      | true =>
        simp only [Bool.not_true] at h
        split at h
        · simp at h
        · injection h with h1 h2
          subst h2
          exact sub_le_self tl (Nat.cast_nonneg elapsed)
    | connectErr s => simp at h

/-- Claim C3 (amended, proved).  Within one `influx` call the budget never
increases, and there is no wait that replenishes it; the connect-phase wait
and every header-phase and body-phase wait deduct exactly their elapsed
seconds, and
the header/body send loops return failure the moment the deducted budget
is zero or below (conjunct 3) — but the response-read loop threads the
budget through untouched: its waits deduct nothing and it performs no
exhaustion check (conjunct 4), and no exhaustion check follows the
connect-phase deduction (conjunct 5 returns a connection whatever the sign
of the deducted budget). -/
theorem influx_budget_discipline :
    (∀ (len : Nat) (tr : List WriteEv) (tl tl' : Rat),
      sendLoop len tl tr = SendRes.sent tl' → tl' ≤ tl) ∧
    (∀ (len : Nat) (tr : List WriteEv) (tl tl' : Rat),
      sendLoop len tl tr = SendRes.failOpen tl' → tl' ≤ 0 ∧ tl' ≤ tl) ∧
    (∀ (len : Nat) (tl : Rat) (e : Nat) (rest : List WriteEv),
      tl - (e : Rat) ≤ 0 →
      sendLoop len tl (WriteEv.block true e :: rest) =
        SendRes.failOpen (tl - (e : Rat))) ∧
    (∀ (tr : List ReadEv) (tl tl' : Rat) (n : Int),
      readLoop tl tr = ReadRes.got n tl' → tl' = tl) ∧
    (∀ (act : action_influx_t) (tl : Rat) (s : Int) (e : Nat),
      act.conn_socket ≤ 0 →
      connectPhase act tl (ConnectEnv.inProgress s true e) =
        ConnRes.conn { act with conn_socket := s } (tl - (e : Rat))) ∧
    (∀ (act : action_influx_t) (tl : Rat) (e : ConnectEnv)
      (act' : action_influx_t) (tl' : Rat),
      connectPhase act tl e = ConnRes.conn act' tl' → tl' ≤ tl) := by
  refine ⟨fun len tr tl tl' => sendLoop_sent_le tr len tl tl',
    fun len tr tl tl' => sendLoop_failOpen_le tr len tl tl',
    fun len tl e rest he => ?_,
    fun tr tl tl' n => readLoop_got_eq tr tl tl' n,
    fun act tl s e hc => ?_,
    fun act tl e act' tl' => connectPhase_conn_le act tl e act' tl'⟩
  · simp [sendLoop, he]
  · simp [connectPhase, not_lt_of_ge hc]

/-- Witness for `influx_budget_discipline` at a concrete input: a header
wait of 4 s against a 3 s budget makes the send loop fail at once with the
deducted (negative) budget. -/
theorem influx_budget_discipline_witness :
    sendLoop 9 3 [WriteEv.block true 4] = SendRes.failOpen (3 - ((4 : Nat) : Rat)) :=
  influx_budget_discipline.2.2.1 9 3 4 [] (by norm_num)

/-- Claim C9 (confirmed).  In the child branch, once the user name resolves,
the `setuid` return value is ignored (line 159): the child goes on to
`execl` whether or not the privilege drop succeeded, and when `setuid`
fails it executes the shell command with the parent's original uid. -/
theorem child_ignores_setuid_result (cmd : action_cmd_t)
    (pw : String → Option Nat) (origUid uid : Nat) (u : String)
    (hu : cmd.user = some u) (hpw : pw u = some uid) :
    (∀ setuidOk : Bool, childRun cmd pw origUid setuidOk true =
      ChildOutcome.exec (if setuidOk then uid else origUid)) ∧
    childRun cmd pw origUid false true = ChildOutcome.exec origUid := by
  refine ⟨fun setuidOk => ?_, ?_⟩ <;> simp [childRun, hu, hpw]

/-- Witness for `child_ignores_setuid_result` at a concrete input: user
`"alice"` resolves to uid 7, `setuid` fails, and the child still runs the
shell as uid 0. -/
theorem child_ignores_setuid_result_witness :
    childRun ⟨"ls", some "alice"⟩ (fun _ => some 7) 0 false true =
      ChildOutcome.exec 0 :=
  (child_ignores_setuid_result ⟨"ls", some "alice"⟩ (fun _ => some 7) 0 7
    "alice" rfl rfl).2

/-- Helper: a clean loop exit means the child became reapable at some poll
and every earlier deadline check passed. -/
theorem waitLoop_clean_sound (ce : Option Nat) (t : Nat) :
    ∀ (fuel k m : Nat), (waitLoop ce t k fuel).1 = LoopOut.clean m →
      ∃ i, reapable ce (k + i) = true ∧ ∀ j < i, 100 * (k + j + 1) < t := by
  intro fuel
  induction fuel with
  | zero => intro k m h; simp [waitLoop] at h
  | succ f ih =>
    intro k m h
    by_cases hr : reapable ce k
    · exact ⟨0, by simpa using hr, fun j hj => absurd hj (Nat.not_lt_zero j)⟩
    · by_cases ht : 100 * (k + 1) ≥ t
      · simp [waitLoop, hr, ht] at h
      · simp only [waitLoop, hr, ht, if_false, if_true, Bool.false_eq_true,
          ite_false] at h
        obtain ⟨i, hi, hj⟩ := ih (k + 1) m (by simpa [hr, ht] using h)
        refine ⟨i + 1, ?_, ?_⟩
        · have harith : k + (i + 1) = k + 1 + i := by omega
          rw [harith]; exact hi
        · intro j hj'
          cases j with
          | zero => simpa using lt_of_not_ge ht
          | succ j' =>
            have := hj j' (by omega)
            have harith : k + 1 + j' + 1 = k + (j' + 1) + 1 := by omega
            rw [harith] at this
            exact this

/-- Helper: if the child becomes reapable at poll `k + i` and every earlier
deadline check passes, the loop (given enough fuel) exits cleanly. -/
theorem waitLoop_clean_complete (ce : Option Nat) (t : Nat) :
    ∀ (i fuel k : Nat), i < fuel → reapable ce (k + i) = true →
      (∀ j < i, 100 * (k + j + 1) < t) →
      ∃ m, (waitLoop ce t k fuel).1 = LoopOut.clean m := by
  intro i
  induction i with
  | zero =>
    intro fuel k hfuel hr _
    obtain ⟨f, rfl⟩ : ∃ f, fuel = f + 1 := ⟨fuel - 1, by omega⟩
    exact ⟨k, by simp [waitLoop, Nat.add_zero k ▸ hr]⟩
  | succ i' ih =>
    intro fuel k hfuel hr hchecks
    obtain ⟨f, rfl⟩ : ∃ f, fuel = f + 1 := ⟨fuel - 1, by omega⟩
    by_cases hr0 : reapable ce k
    · exact ⟨k, by simp [waitLoop, hr0]⟩
    · have ht : ¬ 100 * (k + 1) ≥ t := by
        have := hchecks 0 (Nat.succ_pos i')
        omega
      obtain ⟨m, hm⟩ := ih f (k + 1) (by omega)
        (by have harith : k + 1 + i' = k + (i' + 1) := by omega
            rw [harith]; exact hr)
        (fun j hj => by
          have := hchecks (j + 1) (by omega)
          have harith : k + 1 + j + 1 = k + (j + 1) + 1 := by omega
          rw [harith]; exact this)
      exact ⟨m, by simpa [waitLoop, hr0, ht] using hm⟩

/-- Helper: with fuel covering the deadline, the loop never runs out. -/
theorem waitLoop_no_fuelOut (ce : Option Nat) (t : Nat) :
    ∀ (fuel k : Nat), t ≤ 100 * (k + fuel) →
      (waitLoop ce t k (fuel + 1)).1 ≠ LoopOut.fuelOut := by
  intro fuel
  induction fuel with
  | zero =>
    intro k hk
    by_cases hr : reapable ce k
    · simp [waitLoop, hr]
    · have ht : 100 * (k + 1) ≥ t := by omega
      simp [waitLoop, hr, ht]
  | succ f ih =>
    intro k hk
    by_cases hr : reapable ce k
    · simp [waitLoop, hr]
    · by_cases ht : 100 * (k + 1) ≥ t
      · simp [waitLoop, hr, ht]
      · have := ih (k + 1) (by omega)
        simpa [waitLoop, hr, ht] using this

/-- Helper: on the timeout path the loop's event list ends with the
`SIGTERM` and the blocking reap. -/
theorem waitLoop_killed_evs (ce : Option Nat) (t : Nat) :
    ∀ (fuel k m : Nat), (waitLoop ce t k fuel).1 = LoopOut.killed m →
      ∃ pre, (waitLoop ce t k fuel).2 = pre ++ [Ev.sigterm, Ev.blockingWait] := by
  intro fuel
  induction fuel with
  | zero => intro k m h; simp [waitLoop] at h
  | succ f ih =>
    intro k m h
    by_cases hr : reapable ce k
    · simp [waitLoop, hr] at h
    · by_cases ht : 100 * (k + 1) ≥ t
      · exact ⟨[Ev.poll false, Ev.sleep], by simp [waitLoop, hr, ht]⟩
      · obtain ⟨pre, hpre⟩ := ih (k + 1) m (by simpa [waitLoop, hr, ht] using h)
        refine ⟨Ev.poll false :: Ev.sleep :: pre, ?_⟩
        simp [waitLoop, hr, ht, hpre]

/-- Helper: the polling loop itself never reads the pipe. -/
theorem waitLoop_no_readPipe (ce : Option Nat) (t : Nat) :
    ∀ (fuel k : Nat), Ev.readPipe ∉ (waitLoop ce t k fuel).2 := by
  intro fuel
  induction fuel with
  | zero => intro k; simp [waitLoop]
  | succ f ih =>
    intro k
    by_cases hr : reapable ce k
    · simp [waitLoop, hr]
    · by_cases ht : 100 * (k + 1) ≥ t
      · simp [waitLoop, hr, ht]
      · simpa [waitLoop, hr, ht] using ih (k + 1)

/-- Helper: on a clean exit the loop's event list ends with the successful
poll. -/
theorem waitLoop_clean_evs (ce : Option Nat) (t : Nat) :
    ∀ (fuel k m : Nat), (waitLoop ce t k fuel).1 = LoopOut.clean m →
      ∃ pre, (waitLoop ce t k fuel).2 = pre ++ [Ev.poll true] := by
  intro fuel
  induction fuel with
  | zero => intro k m h; simp [waitLoop] at h
  | succ f ih =>
    intro k m h
    by_cases hr : reapable ce k
    · exact ⟨[], by simp [waitLoop, hr]⟩
    · by_cases ht : 100 * (k + 1) ≥ t
      · simp [waitLoop, hr, ht] at h
      · obtain ⟨pre, hpre⟩ := ih (k + 1) m (by simpa [waitLoop, hr, ht] using h)
        refine ⟨Ev.poll false :: Ev.sleep :: pre, ?_⟩
        simp [waitLoop, hr, ht, hpre]

/-- Claim C5 (confirmed).  With the pipe and the fork succeeding,
`run_command` returns success exactly when some poll reaps the child after
every earlier deadline check passed (a clean reap within the budget, the
returned `res == pid`); the child's exit status is never consulted (the
code passes `NULL` to `waitpid`, conjunct 2); and whenever no such clean
reap exists — the deadline fires first — the call returns failure and its
event trace ends with the `SIGTERM` followed by the blocking reap. -/
theorem run_command_success_iff_clean_reap (env : RunEnv) (s : Int)
    (hp : env.pipeOk = true) (hf : env.forkOk = true) :
    ((run_command env s).1 = true ↔
      ∃ k, reapable env.childExit k = true ∧
        ∀ j < k, 100 * (j + 1) < env.timeout_ms) ∧
    (∀ s' : Int, run_command env s' = run_command env s) ∧
    ((¬ ∃ k, reapable env.childExit k = true ∧
        ∀ j < k, 100 * (j + 1) < env.timeout_ms) →
      (run_command env s).1 = false ∧
      ∃ pre, (run_command env s).2 = pre ++ [Ev.sigterm, Ev.blockingWait]) := by
  refine ⟨?_, fun s' => rfl, ?_⟩
  all_goals
    rcases hW : waitLoop env.childExit env.timeout_ms 0 (env.timeout_ms / 100 + 2)
      with ⟨o, evs⟩
  · cases o with
    | clean m =>
      have hclean : (waitLoop env.childExit env.timeout_ms 0
          (env.timeout_ms / 100 + 2)).1 = LoopOut.clean m := by rw [hW]
      obtain ⟨i, hi, hj⟩ := waitLoop_clean_sound env.childExit env.timeout_ms
        (env.timeout_ms / 100 + 2) 0 m hclean
      refine iff_of_true ?_ ⟨i, by simpa using hi, fun j hj' => by
        simpa using hj j hj'⟩
      simp [run_command, hp, hf, hW]
    | killed m =>
      refine iff_of_false ?_ ?_
      · simp [run_command, hp, hf, hW]
      · rintro ⟨k, hk, hchecks⟩
        have hkfuel : k < env.timeout_ms / 100 + 2 := by
          rcases Nat.eq_zero_or_pos k with hk0 | hk0
          · omega
          · have := hchecks (k - 1) (by omega)
            have hdm := Nat.div_add_mod env.timeout_ms 100
            have hmod := Nat.mod_lt env.timeout_ms (show 0 < 100 by omega)
            omega
        obtain ⟨m', hm'⟩ := waitLoop_clean_complete env.childExit
          env.timeout_ms k (env.timeout_ms / 100 + 2) 0 hkfuel (by simpa using hk)
          (fun j hj => by simpa using hchecks j hj)
        rw [hW] at hm'
        simp at hm'
    | fuelOut =>
      exfalso
      have h2 : env.timeout_ms / 100 + 2 = (env.timeout_ms / 100 + 1) + 1 := by
        omega
      rw [h2] at hW
      refine waitLoop_no_fuelOut env.childExit env.timeout_ms
        (env.timeout_ms / 100 + 1) 0 ?_ ?_
      · have hdm := Nat.div_add_mod env.timeout_ms 100
        have hmod := Nat.mod_lt env.timeout_ms (show 0 < 100 by omega)
        omega
      · rw [hW]
  · intro hn
    cases o with
    | clean m =>
      exfalso
      have hclean : (waitLoop env.childExit env.timeout_ms 0
          (env.timeout_ms / 100 + 2)).1 = LoopOut.clean m := by rw [hW]
      obtain ⟨i, hi, hj⟩ := waitLoop_clean_sound env.childExit env.timeout_ms
        (env.timeout_ms / 100 + 2) 0 m hclean
      exact hn ⟨i, by simpa using hi, fun j hj' => by simpa using hj j hj'⟩
    | killed m =>
      have hkilled : (waitLoop env.childExit env.timeout_ms 0
          (env.timeout_ms / 100 + 2)).1 = LoopOut.killed m := by rw [hW]
      obtain ⟨pre, hpre⟩ := waitLoop_killed_evs env.childExit env.timeout_ms
        (env.timeout_ms / 100 + 2) 0 m hkilled
      rw [hW] at hpre
      refine ⟨by simp [run_command, hp, hf, hW], pre, ?_⟩
      simp [run_command, hp, hf, hW, hpre]
    | fuelOut =>
      exfalso
      have h2 : env.timeout_ms / 100 + 2 = (env.timeout_ms / 100 + 1) + 1 := by
        omega
      rw [h2] at hW
      refine waitLoop_no_fuelOut env.childExit env.timeout_ms
        (env.timeout_ms / 100 + 1) 0 ?_ ?_
      · have hdm := Nat.div_add_mod env.timeout_ms 100
        have hmod := Nat.mod_lt env.timeout_ms (show 0 < 100 by omega)
        omega
      · rw [hW]

/-- Witness for `run_command_success_iff_clean_reap` at a concrete input:
a child that is already reapable at the first poll, against a 1000 ms
budget, yields success. -/
theorem run_command_success_iff_clean_reap_witness :
    (run_command ⟨true, true, some 0, 1000⟩ 0).1 = true :=
  ((run_command_success_iff_clean_reap ⟨true, true, some 0, 1000⟩ 0 rfl rfl).1).mpr
    ⟨0, rfl, fun j hj => absurd hj (Nat.not_lt_zero j)⟩

/-- Claim C8 (counterexample).  The claim says that while the child has not
yet exited, the parent drains the output pipe concurrently with polling.
Concrete run refuting it: the child exits 150 ms after the spawn (reapable
at the third poll) under a 1000 ms budget; `run_command` succeeds, but its
event trace shows two polls and two sleeps with no pipe read before the
reaping poll — `drainedBeforeReap` is false — and both pipe reads come
after the child was reaped, because the drain loop of lines 204-210 only
starts once the wait loop of lines 183-202 has finished. -/
theorem run_command_no_drain_before_exit_cex :
    (run_command ⟨true, true, some 150, 1000⟩ 0).1 = true ∧
    drainedBeforeReap (run_command ⟨true, true, some 150, 1000⟩ 0).2 = false ∧
    (run_command ⟨true, true, some 150, 1000⟩ 0).2 =
      [Ev.poll false, Ev.sleep, Ev.poll false, Ev.sleep, Ev.poll true,
       Ev.readPipe, Ev.closeRead] :=
  ⟨rfl, rfl, rfl⟩

/-- Claim C8 (amended, proved).  The parent does not drain the pipe while
the child runs: every `run_command` event trace splits into a polling part
containing no pipe read, followed by a tail that is either empty (failure
paths, including the kill path, which never reads the pipe at all) or the
drain-and-close suffix that begins only after the poll that reaped the
child. -/
theorem run_command_drains_only_after_reap (env : RunEnv) (s : Int) :
    ∃ L T, (run_command env s).2 = L ++ T ∧ Ev.readPipe ∉ L ∧
      (T = [] ∨ ∃ pre, L = pre ++ [Ev.poll true] ∧
        T = [Ev.readPipe, Ev.closeRead]) := by
  cases hp : env.pipeOk with
  | false => exact ⟨[], [], by simp [run_command, hp], by simp, Or.inl rfl⟩
  | true =>
    cases hf : env.forkOk with
    | false => exact ⟨[], [], by simp [run_command, hp, hf], by simp, Or.inl rfl⟩
    | true =>
      rcases hW : waitLoop env.childExit env.timeout_ms 0
        (env.timeout_ms / 100 + 2) with ⟨o, evs⟩
      have hnoread : Ev.readPipe ∉ evs := by
        have := waitLoop_no_readPipe env.childExit env.timeout_ms
          (env.timeout_ms / 100 + 2) 0
        rw [hW] at this
        exact this
      cases o with
      | clean m =>
        have hclean : (waitLoop env.childExit env.timeout_ms 0
            (env.timeout_ms / 100 + 2)).1 = LoopOut.clean m := by rw [hW]
        obtain ⟨pre, hpre⟩ := waitLoop_clean_evs env.childExit env.timeout_ms
          (env.timeout_ms / 100 + 2) 0 m hclean
        rw [hW] at hpre
        exact ⟨evs, [Ev.readPipe, Ev.closeRead],
          by simp [run_command, hp, hf, hW], hnoread, Or.inr ⟨pre, hpre, rfl⟩⟩
      | killed m =>
        exact ⟨evs, [], by simp [run_command, hp, hf, hW], hnoread, Or.inl rfl⟩
      | fuelOut =>
        exact ⟨evs, [], by simp [run_command, hp, hf, hW], hnoread, Or.inl rfl⟩

/-- Claim C10 (confirmed).  In the send loops a `write` whose return is
classified neither as `-1`-with-would-block nor as the full buffer length —
a short write or any other error — ends the loop at once as failure with
`CLOSE` (conjunct 1: the remaining trace `rest` is never consumed, so
nothing is retried from a partial offset and the transmitted bytes are
abandoned); lifted to `influx` (conjunct 2), such a header write makes the
whole call return failure with the connection closed and cleared. -/
theorem influx_short_write_hard_error :
    (∀ (len : Nat) (tl : Rat) (n : Int) (rest : List WriteEv),
      n ≠ (len : Int) →
      sendLoop len tl (WriteEv.ret n :: rest) = SendRes.failClosed) ∧
    (∀ (act : action_influx_t) (env : InfluxEnv) (line : String) (n : Int)
      (rest : List WriteEv),
      0 < act.conn_socket →
      env.headerTrace = WriteEv.ret n :: rest →
      n ≠ ((mkHeader act line).length : Int) →
      influx act env line = InfluxRes.done (CLOSE act) false) := by
  have h1 : ∀ (len : Nat) (tl : Rat) (n : Int) (rest : List WriteEv),
      n ≠ (len : Int) →
      sendLoop len tl (WriteEv.ret n :: rest) = SendRes.failClosed := by
    intro len tl n rest hn
    simp [sendLoop, hn]
  refine ⟨h1, fun act env line n rest hconn htr hn => ?_⟩
  have hc : connectPhase act act.timeout env.connect =
      ConnRes.conn act act.timeout := by
    simp [connectPhase, hconn]
  have hs : sendLoop (mkHeader act line).length act.timeout env.headerTrace =
      SendRes.failClosed := by
    rw [htr]
    exact h1 _ _ _ _ hn
  simp [influx, hc, hs]

/-- Witness for `influx_short_write_hard_error` at a concrete input: a
header buffer of 90 bytes and a `write` that reports only 3 bytes written
make the send loop fail immediately with the connection-closing path. -/
theorem influx_short_write_hard_error_witness :
    sendLoop 90 2 [WriteEv.ret 3] = SendRes.failClosed :=
  influx_short_write_hard_error.1 90 2 3 [] (by decide)

end SRD
